/-
Verification of the hautrelief/rss scraping pipeline.

Shallow embedding of `src/multi_scraper_xml.py` and `src/scraper_xml.py`:
pure functions are translated directly; Python exceptions are modelled with
`Except PyErr`; the fixed regular expressions of the source are embedded as
executable matchers reproducing Python `re.search` leftmost/greedy
backtracking semantics for exactly those patterns.
-/
import Mathlib

namespace Scraper

/-! ## Python datetime model

`datetime.datetime` values as used by the scrapers (seconds are always 0
in every constructed value, so they are omitted).  `datetime(...)` raises
`ValueError` on out-of-range fields; this is modelled by `mkDatetime`. -/

structure DT where
  year : Nat
  month : Nat
  day : Nat
  hour : Nat
  minute : Nat
deriving DecidableEq, Repr

inductive PyErr
  | valueError
  | typeError
  | fetchError
deriving DecidableEq, Repr

def isLeap (y : Nat) : Bool := y % 4 = 0 && (y % 100 != 0 || y % 400 = 0)

def daysInMonth (y m : Nat) : Nat :=
  if m = 2 then (if isLeap y then 29 else 28)
  else if m = 4 || m = 6 || m = 9 || m = 11 then 30
  else 31

/-- `datetime(y, m, d, hh, mi)`: validates ranges like CPython, raising
`ValueError` on an invalid calendar value. -/
def mkDatetime (y m d hh mi : Nat) : Except PyErr DT :=
  if 1 ≤ y && y ≤ 9999 && 1 ≤ m && m ≤ 12 && 1 ≤ d && d ≤ daysInMonth y m
      && hh ≤ 23 && mi ≤ 59 then
    .ok ⟨y, m, d, hh, mi⟩
  else
    .error .valueError

/-- `datetime.max` (sentinel used as sort key for events without a start). -/
def dtMax : DT := ⟨9999, 12, 31, 23, 59⟩

/-- Python `datetime` comparison (lexicographic on the fields). -/
def dtLeB (a b : DT) : Bool :=
  (a.year < b.year) ||
  (a.year = b.year && ((a.month < b.month) ||
    (a.month = b.month && ((a.day < b.day) ||
      (a.day = b.day && ((a.hour < b.hour) ||
        (a.hour = b.hour && a.minute ≤ b.minute)))))))

/-! ## Character classes and string helpers -/

def isPyDigit (c : Char) : Bool := '0' ≤ c && c ≤ '9'

/-- Python `\s` on the characters that can occur here (ASCII whitespace and
the no-break space, which the sources additionally replace by hand). -/
def isPySpace (c : Char) : Bool :=
  c = ' ' || c = '\t' || c = '\n' || c = '\r' || c.val = 11 || c.val = 12 || c.val = 0xa0

/-- The letter class `[A-Za-zæøåÆØÅ]` of the month-name date pattern. -/
def isDateLetter (c : Char) : Bool :=
  ('a' ≤ c && c ≤ 'z') || ('A' ≤ c && c ≤ 'Z') ||
  c = 'æ' || c = 'ø' || c = 'å' || c = 'Æ' || c = 'Ø' || c = 'Å'

/-- Python `\w` (word character) for the `\b` boundaries of the bare time
pattern, on the alphabet that can occur here. -/
def isWordChar (c : Char) : Bool := isPyDigit c || isDateLetter c || c = '_'

def natOfDigits (cs : List Char) : Nat :=
  cs.foldl (fun n c => n * 10 + (c.toNat - '0'.toNat)) 0

/-- Greedy `\s*`: the following atoms never match whitespace, so the greedy
skip needs no backtracking. -/
def skipSpaces : List Char → List Char
  | [] => []
  | c :: cs => if isPySpace c then skipSpaces cs else c :: cs

/-- Candidate splits for `\d{lo,hi}` at the head of `cs`, longest first
(Python greedy order with backtracking).  Returns `(digits, rest)` pairs. -/
def digitSplitCandidates (cs : List Char) (lo : Nat) : Nat → List (List Char × List Char)
  | 0 => []
  | k + 1 =>
    let pre := cs.take (k + 1)
    if lo ≤ k + 1 && pre.length = k + 1 && pre.all isPyDigit then
      (pre, cs.drop (k + 1)) :: digitSplitCandidates cs lo k
    else digitSplitCandidates cs lo k

/-! ## The fixed date/time regular expressions

`DATE_PATS` / `DP` and `TIME_PATS` / `TP` of the sources, embedded as
matchers.  Each `match*At` function tries a match anchored at the head of
its argument, reproducing the engine's backtracking order; each `search*`
function scans positions left to right (`re.search`). -/

def isNumSep (c : Char) : Bool := c = '-' || c = '/' || c = '.'

/-- Anchored attempt of `(\d{1,2})\s*[. / -]\s*(\d{1,2})\s*[. / -]\s*(\d{2,4})`. -/
def matchNumAt (cs : List Char) : Option (Nat × Nat × Nat) :=
  (digitSplitCandidates cs 1 2).findSome? fun p1 =>
    match skipSpaces p1.2 with
    | [] => none
    | s1 :: r1 =>
      if isNumSep s1 then
        (digitSplitCandidates (skipSpaces r1) 1 2).findSome? fun p2 =>
          match skipSpaces p2.2 with
          | [] => none
          | s2 :: r2 =>
            if isNumSep s2 then
              (digitSplitCandidates (skipSpaces r2) 2 4).findSome? fun p3 =>
                some (natOfDigits p1.1, natOfDigits p2.1, natOfDigits p3.1)
            else none
      else none

def searchNum : List Char → Option (Nat × Nat × Nat)
  | [] => none
  | c :: cs =>
    match matchNumAt (c :: cs) with
    | some r => some r
    | none => searchNum cs

/-- Anchored attempt of `(\d{1,2})\.?\s*([A-Za-zæøåÆØÅ]{3,maxL})\s*(\d{yLo,yHi})`.
Returns `(day digits value, month-name characters, year digits value)`.
The letter group is deterministic: it must take the whole maximal letter
run (anything shorter leaves a letter where a digit is required). -/
def matchMonthNameAt (maxL yLo yHi : Nat) (cs : List Char) :
    Option (Nat × List Char × Nat) :=
  (digitSplitCandidates cs 1 2).findSome? fun p1 =>
    let r1 := match p1.2 with
      | '.' :: t => t
      | other => other
    let r2 := skipSpaces r1
    let run := r2.takeWhile isDateLetter
    if 3 ≤ run.length && run.length ≤ maxL then
      (digitSplitCandidates (skipSpaces (r2.drop run.length)) yLo yHi).findSome?
        fun p3 => some (natOfDigits p1.1, run, natOfDigits p3.1)
    else none

def searchMonthName (maxL yLo yHi : Nat) : List Char → Option (Nat × List Char × Nat)
  | [] => none
  | c :: cs =>
    match matchMonthNameAt maxL yLo yHi (c :: cs) with
    | some r => some r
    | none => searchMonthName maxL yLo yHi cs

/-- Anchored attempt of `kl\.?\s*(\d{1,2})[:.](\d{2})` (case-insensitive). -/
def matchKlAt (cs : List Char) : Option (Nat × Nat) :=
  match cs with
  | k :: l :: r0 =>
    if (k = 'k' || k = 'K') && (l = 'l' || l = 'L') then
      let r1 := match r0 with
        | '.' :: t => t
        | other => other
      (digitSplitCandidates (skipSpaces r1) 1 2).findSome? fun p1 =>
        match p1.2 with
        | [] => none
        | s :: r2 =>
          if s = ':' || s = '.' then
            (digitSplitCandidates r2 2 2).findSome? fun p2 =>
              some (natOfDigits p1.1, natOfDigits p2.1)
          else none
    else none
  | _ => none

def searchKl : List Char → Option (Nat × Nat)
  | [] => none
  | c :: cs =>
    match matchKlAt (c :: cs) with
    | some r => some r
    | none => searchKl cs

/-- Anchored attempt of `\b(\d{1,2})[:.](\d{2})\b`; `prev` is the character
before the current position (for the left word boundary). -/
def matchBareTimeAt (prev : Option Char) (cs : List Char) : Option (Nat × Nat) :=
  if (match prev with
      | some p => isWordChar p
      | none => false) then none
  else
    (digitSplitCandidates cs 1 2).findSome? fun p1 =>
      match p1.2 with
      | [] => none
      | s :: r2 =>
        if s = ':' || s = '.' then
          (digitSplitCandidates r2 2 2).findSome? fun p2 =>
            match p2.2 with
            | [] => some (natOfDigits p1.1, natOfDigits p2.1)
            | c :: _ => if isWordChar c then none else some (natOfDigits p1.1, natOfDigits p2.1)
        else none

def searchBareTimeAux (prev : Option Char) : List Char → Option (Nat × Nat)
  | [] => none
  | c :: cs =>
    match matchBareTimeAt prev (c :: cs) with
    | some r => some r
    | none => searchBareTimeAux (some c) cs

def searchBareTime (cs : List Char) : Option (Nat × Nat) :=
  searchBareTimeAux none cs

/-! ## Text normalization (`norm_space`, `.lower()`, nbsp replacement) -/

/-- Collapse each run of whitespace to a single space (Python
`re.sub` of one-or-more whitespace to a single space). -/
def squeezeSpaces : List Char → List Char
  | [] => []
  | [c] => [if isPySpace c then ' ' else c]
  | c :: d :: cs =>
    if isPySpace c && isPySpace d then squeezeSpaces (d :: cs)
    else (if isPySpace c then ' ' else c) :: squeezeSpaces (d :: cs)

def pyStrip (cs : List Char) : List Char :=
  ((cs.dropWhile isPySpace).reverse.dropWhile isPySpace).reverse

/-- `norm_space` of multi_scraper_xml.py applied to a character list:
nbsp is replaced (subsumed by `isPySpace`), whitespace runs are collapsed,
and the result is stripped. -/
def norm_space_chars (cs : List Char) : List Char :=
  pyStrip (squeezeSpaces cs)

def pyLower (cs : List Char) : List Char := cs.map Char.toLower

/-! ## Month table and date extraction -/

/-- `MONTHS` of both source files (they are identical). -/
def MONTHS : List (String × Nat) :=
  [("jan", 1), ("januar", 1),
   ("feb", 2), ("februar", 2),
   ("mar", 3), ("marts", 3),
   ("apr", 4), ("april", 4),
   ("maj", 5),
   ("jun", 6), ("juni", 6),
   ("jul", 7), ("juli", 7),
   ("aug", 8), ("august", 8),
   ("sep", 9), ("sept", 9), ("september", 9),
   ("okt", 10), ("oktober", 10),
   ("nov", 11), ("november", 11),
   ("dec", 12), ("december", 12)]

def monthLookup (s : String) : Option Nat := MONTHS.lookup s

/-- The date loop of `parse_dk_datetime` (multi_scraper_xml.py lines
117-129): try the month-name pattern, then the numeric pattern; the first
pattern to match fixes `(d, m, y)` and the loop breaks.  The month name is
looked up after stripping dots (the letter group contains none) and
lowercasing; a failed lookup leaves `m = None`.  The two-digit year
expansion applies only in the numeric branch. -/
def findDateMulti (cs : List Char) : Option Nat × Option Nat × Option Nat :=
  match searchMonthName 12 2 4 cs with
  | some r => (some r.1, monthLookup (String.mk (pyLower r.2.1)), some r.2.2)
  | none =>
    match searchNum cs with
    | some r =>
      (some r.1, some r.2.1,
       some (if r.2.2 < 100 then (if r.2.2 < 50 then r.2.2 + 2000 else r.2.2 + 1900)
             else r.2.2))
    | none => (none, none, none)

/-- The date loop of `extract_dt` (scraper_xml.py lines 50-57): same
structure, but the month-name pattern allows at most 10 letters and
requires a 4-digit year, and lowercasing happens before dot-stripping. -/
def findDateSingle (cs : List Char) : Option Nat × Option Nat × Option Nat :=
  match searchMonthName 10 4 4 cs with
  | some r => (some r.1, monthLookup (String.mk (pyLower r.2.1)), some r.2.2)
  | none =>
    match searchNum cs with
    | some r =>
      (some r.1, some r.2.1,
       some (if r.2.2 < 50 then r.2.2 + 2000
             else if r.2.2 < 100 then r.2.2 + 1900 else r.2.2))
    | none => (none, none, none)

/-- The time loop shared by both sources: `kl`-prefixed time first, then a
bare word-bounded time. -/
def findTime (cs : List Char) : Option (Nat × Nat) :=
  match searchKl cs with
  | some r => some r
  | none => searchBareTime cs

/-- Python truthiness of the `d and m and y` gate: `None` and `0` are falsy. -/
def truthyNat : Option Nat → Bool
  | none => false
  | some n => n != 0

/-- Lines 139-145 of multi_scraper_xml.py, identical to lines 62-66 of
scraper_xml.py: default the time to 09:00, build `start`, and build `end`
with the hour capped at 23 (minutes are kept).  `datetime` may raise. -/
def combineDT (d m y : Nat) (tm : Option (Nat × Nat)) :
    Except PyErr (Option DT × Option DT) :=
  (mkDatetime y m d ((tm.map Prod.fst).getD 9) ((tm.map Prod.snd).getD 0)).bind
    fun s =>
      (mkDatetime y m d (min 23 (((tm.map Prod.fst).getD 9) + 2))
          ((tm.map Prod.snd).getD 0)).bind
        fun e => .ok (some s, some e)

/-- The `if d and m and y:` gate shared by both parse functions. -/
def parse_gate (dmy : Option Nat × Option Nat × Option Nat)
    (tm : Option (Nat × Nat)) : Except PyErr (Option DT × Option DT) :=
  if truthyNat dmy.1 && truthyNat dmy.2.1 && truthyNat dmy.2.2 then
    combineDT (dmy.1.getD 0) (dmy.2.1.getD 0) (dmy.2.2.getD 0) tm
  else .ok (none, none)

/-- `parse_dk_datetime` of multi_scraper_xml.py.  The result is
`(start, end)`; exceptions escaping the function are modelled by the
`Except` layer. -/
def parse_dk_datetime (text : String) : Except PyErr (Option DT × Option DT) :=
  if text = "" then .ok (none, none)
  else parse_gate (findDateMulti (norm_space_chars (pyLower text.toList)))
    (findTime (norm_space_chars (pyLower text.toList)))

/-- The nbsp replacement of `extract_dt` (line 49). -/
def nbspFix (text : String) : List Char :=
  text.toList.map (fun c => if c.val = 0xa0 then ' ' else c)

/-- `extract_dt` of scraper_xml.py: no emptiness guard, no lowercasing or
whitespace collapsing of the text (only the nbsp replacement). -/
def extract_dt (text : String) : Except PyErr (Option DT × Option DT) :=
  parse_gate (findDateSingle (nbspFix text)) (findTime (nbspFix text))

deriving instance DecidableEq for Except

example : parse_dk_datetime "2. september 2025 kl. 19:00" =
    .ok (some ⟨2025, 9, 2, 19, 0⟩, some ⟨2025, 9, 2, 21, 0⟩) := by decide

example : parse_dk_datetime "2025-09-14 10:00" =
    .ok (some ⟨2014, 9, 25, 10, 0⟩, some ⟨2014, 9, 25, 12, 0⟩) := by decide

example : parse_dk_datetime "31. april 2025" = .error .valueError := by decide

example : parse_dk_datetime "kun 19:00 her" = .ok (none, none) := by decide

example : parse_dk_datetime "2.9.2025 kl. 22.30" =
    .ok (some ⟨2025, 9, 2, 22, 30⟩, some ⟨2025, 9, 2, 23, 30⟩) := by decide

example : extract_dt "2. September 2025 kl. 19:00" =
    .ok (some ⟨2025, 9, 2, 19, 0⟩, some ⟨2025, 9, 2, 21, 0⟩) := by decide

example : extract_dt "31. april 2025" = .error .valueError := by decide

/-! ## Event records and the listing core

The candidate extraction from HTML blocks (BeautifulSoup traversal) is the
input boundary of the embedding: a listing is represented by the list of
candidate event dicts produced by `extract_event_from_block`, in document
order.  The filter / dedup / sort core of `scrape_listing` (lines 267-281)
is embedded exactly. -/

structure Event where
  title : String
  link : String
  teaser : String
  start : Option DT
  stop : Option DT
  is_internal : Bool
  detail_html : Option String := none
deriving DecidableEq, Repr

/-- Deduplication keys: `ev["link"] or (ev["title"], ev["start"])` —
a non-empty link, else the (title, start) pair. -/
def EvKey := Sum String (String × Option DT)
deriving DecidableEq, Repr

def dedupKey (e : Event) : EvKey :=
  if e.link ≠ "" then Sum.inl e.link else Sum.inr (e.title, e.start)

/-- `if not ev["title"] and not ev["link"]: continue` (line 271). -/
def discardedCand (e : Event) : Bool := e.title = "" && e.link = ""

/-- The dedup loop of `scrape_listing` (lines 267-278): skip empty
candidates, then keep only the first occurrence of each key. -/
def dedupEvents (seen : List EvKey) : List Event → List Event
  | [] => []
  | e :: es =>
    if discardedCand e then dedupEvents seen es
    else if dedupKey e ∈ seen then dedupEvents seen es
    else e :: dedupEvents (dedupKey e :: seen) es

/-- Sort key: `e["start"] or datetime.max` (line 281). -/
def sortKeyDT (e : Event) : DT := e.start.getD dtMax

def evLeB (a b : Event) : Bool := dtLeB (sortKeyDT a) (sortKeyDT b)

/-- Stable insertion: an element is placed before the first list element it
compares less-or-equal to, so elements with equal keys keep their relative
order, as with Python's stable `list.sort`. -/
def insertEv (e : Event) : List Event → List Event
  | [] => [e]
  | f :: fs => if evLeB e f then e :: f :: fs else f :: insertEv e fs

def sortEvents : List Event → List Event
  | [] => []
  | e :: es => insertEv e (sortEvents es)

/-- Lines 267-281 of `scrape_listing`: filter and deduplicate the
candidates, then sort by start (missing starts keyed by `datetime.max`). -/
def scrape_core (cands : List Event) : List Event :=
  sortEvents (dedupEvents [] cands)

/-! ## XML model

lxml element trees as used by the writers.  A text node is either absent,
plain text (escaped on serialization) or a CDATA node (emitted verbatim
inside CDATA markers). -/

inductive XText
  | noText
  | plain (s : String)
  | cdata (s : String)
deriving DecidableEq, Repr

inductive Xml
  | el (tag : String) (attrs : List (String × String)) (text : XText) (children : List Xml)

def Xml.tag : Xml → String
  | .el t _ _ _ => t

def Xml.attrs : Xml → List (String × String)
  | .el _ a _ _ => a

def Xml.text : Xml → XText
  | .el _ _ tx _ => tx

def Xml.children : Xml → List Xml
  | .el _ _ _ cs => cs

def childTag (x : Xml) (t : String) : Option Xml :=
  x.children.find? (fun c => c.tag = t)

def isCDataNode (x : Xml) : Bool :=
  match x.text with
  | .cdata _ => true
  | _ => false

def textString (x : Xml) : String :=
  match x.text with
  | .noText => ""
  | .plain s => s
  | .cdata s => s

/-- Well-formedness to a fixed depth (all trees built here have depth at
most 4): every element has a non-empty tag name. -/
def wellFormedTo : Nat → Xml → Bool
  | 0, x => x.tag ≠ ""
  | n + 1, x => x.tag ≠ "" && x.children.all (wellFormedTo n)

/-- Serialization of a text node: plain text is entity-escaped exactly as
ElementTree and lxml escape text content; CDATA is emitted verbatim. -/
def escChar (c : Char) : String :=
  if c = '&' then "&amp;"
  else if c = '<' then "&lt;"
  else if c = '>' then "&gt;"
  else String.mk [c]

def escapeText (s : String) : String :=
  s.toList.foldr (fun c acc => escChar c ++ acc) ""

def serializeText : XText → String
  | .noText => ""
  | .plain s => escapeText s
  | .cdata s => "<![CDATA[" ++ s ++ "]]>"

def serializeAttrs (attrs : List (String × String)) : String :=
  attrs.foldr (fun a acc => " " ++ a.1 ++ "=\"" ++ a.2 ++ "\"" ++ acc) ""

/-- Serialization to a fixed depth (no pretty-printing; indentation is
irrelevant to the properties checked here). -/
def serializeTo : Nat → Xml → String
  | 0, x => "<" ++ x.tag ++ serializeAttrs x.attrs ++ ">" ++ serializeText x.text
      ++ "</" ++ x.tag ++ ">"
  | n + 1, x => "<" ++ x.tag ++ serializeAttrs x.attrs ++ ">" ++ serializeText x.text
      ++ (x.children.map (serializeTo n)).foldr (· ++ ·) ""
      ++ "</" ++ x.tag ++ ">"

/-- `make_cdata` of multi_scraper_xml.py: a genuine lxml CDATA node
(`text or ""` keeps empty strings as empty CDATA). -/
def make_cdata (tag : String) (text : String) : Xml :=
  .el tag [] (.cdata text) []

/-- `ctext` of scraper_xml.py: the CDATA markers are written as literal
text into an ElementTree text node. -/
def ctext (tag : String) (val : String) : Xml :=
  .el tag [] (.plain ("<![CDATA[ " ++ val ++ " ]]>")) []

/-! ## Timestamp formatting -/

def pad2 (n : Nat) : String := if n < 10 then "0" ++ toString n else toString n

def pad4 (n : Nat) : String :=
  if n < 10 then "000" ++ toString n
  else if n < 100 then "00" ++ toString n
  else if n < 1000 then "0" ++ toString n
  else toString n

/-- `fmt_c`: `%Y-%m-%d %H:%M:%S` (seconds are always 00 here). -/
def fmt_c : Option DT → String
  | none => ""
  | some d =>
    pad4 d.year ++ "-" ++ pad2 d.month ++ "-" ++ pad2 d.day ++ " " ++
    pad2 d.hour ++ ":" ++ pad2 d.minute ++ ":00"

/-- `fmt_h`: `%Y-%m-%d %-I:%M %p` (the glibc no-pad 12-hour form the
sources use on Linux, with the `%I` fallback otherwise). -/
def fmt_h : Option DT → String
  | none => ""
  | some d =>
    let h12 := if d.hour % 12 = 0 then 12 else d.hour % 12
    pad4 d.year ++ "-" ++ pad2 d.month ++ "-" ++ pad2 d.day ++ " " ++
    toString h12 ++ ":" ++ pad2 d.minute ++ " " ++
    (if d.hour < 12 then "AM" else "PM")

def weekdayNames : List String :=
  ["Sun", "Mon", "Tue", "Wed", "Thu", "Fri", "Sat"]

def monthNames : List String :=
  ["Jan", "Feb", "Mar", "Apr", "May", "Jun", "Jul", "Aug", "Sep", "Oct", "Nov", "Dec"]

/-- Day of week by Sakamoto's method (0 = Sunday), for `%a`. -/
def dayOfWeek (y m d : Nat) : Nat :=
  let t := [0, 3, 2, 5, 0, 3, 5, 1, 4, 6, 2, 4]
  let y' := if m < 3 then y - 1 else y
  (y' + y' / 4 + y' / 400 + t.getD (m - 1) 0 + d - y' / 100) % 7

/-- `%a, %d %b %Y %H:%M:%S %z`.  For the naive datetimes built by the
parser `%z` renders as the empty string (leaving a trailing space); for
`datetime.now(timezone.utc)` it renders `+0000`. -/
def fmt_rfc822 (d : DT) (tz : String) : String :=
  weekdayNames.getD (dayOfWeek d.year d.month d.day) "" ++ ", " ++
  pad2 d.day ++ " " ++ monthNames.getD (d.month - 1) "" ++ " " ++
  pad4 d.year ++ " " ++ pad2 d.hour ++ ":" ++ pad2 d.minute ++ ":00 " ++ tz

example : fmt_rfc822 ⟨2025, 9, 2, 19, 0⟩ "" = "Tue, 02 Sep 2025 19:00:00 " := by decide

example : fmt_h (some ⟨2025, 9, 2, 19, 0⟩) = "2025-09-02 7:00 PM" := by decide

/-! ## Event id derivation -/

/-- Kernel-computable prefix test on character lists. -/
def startsWithChars : List Char → List Char → Bool
  | [], _ => true
  | _ :: _, [] => false
  | p :: ps, c :: cs => p = c && startsWithChars ps cs

/-- `urlparse(u).path` for the URL shapes that occur here: strip an
`http(s)://netloc` prefix when present, then cut at a query or fragment. -/
def pyPath (u : String) : String :=
  let cs := u.toList
  let rest :=
    if startsWithChars ("https://").toList cs then
      (cs.drop 8).dropWhile (fun c => c ≠ '/')
    else if startsWithChars ("http://").toList cs then
      (cs.drop 7).dropWhile (fun c => c ≠ '/')
    else cs
  String.mk (rest.takeWhile (fun c => c ≠ '?' && c ≠ '#'))

/-- Anchored-at-end attempt of the id pattern at the head of `cs`: a
slash, one to eight digits (greedy), then an optional slash and the end of
the string.  The group is returned as its digit characters (leading zeros
are kept, as with `m.group(1)`). -/
def matchTrailIdAt (cs : List Char) : Option String :=
  match cs with
  | '/' :: rest =>
    (digitSplitCandidates rest 1 8).findSome? fun p =>
      match p.2 with
      | [] => some (String.mk p.1)
      | ['/'] => some (String.mk p.1)
      | _ => none
  | _ => none

def searchTrailId : List Char → Option String
  | [] => none
  | c :: cs =>
    match matchTrailIdAt (c :: cs) with
    | some r => some r
    | none => searchTrailId cs

/-- The id derivation of `build_custom_event` (lines 350-352): the
trailing numeric path segment of the link when present, else
`str(abs(hash((host, title, link)))	% 10**9)`.  CPython's `hash` on
strings is salted per process; the embedding therefore takes the
process's tuple-hash function as an explicit parameter `pyhash`. -/
def build_event_id (pyhash : String → String → String → Int)
    (host title link : String) : String :=
  match searchTrailId (pyPath link).toList with
  | some g => g
  | none => toString ((pyhash host title link).natAbs % 10 ^ 9)

example : searchTrailId (pyPath "https://a.dk/events/123/").toList = some "123" := by decide

example : searchTrailId (pyPath "https://a.dk/123456789/").toList = none := by decide

/-! ## Custom XML writers (multi_scraper_xml.py) -/

/-- `provider_xml` (lines 338-347). -/
def provider_xml : Xml :=
  .el "provider" [] .noText
    [make_cdata "title" "NemTilmeld Aps",
     make_cdata "address" "Strømmen 6",
     .el "zipcode" [] (.cdata "9400") [],
     make_cdata "city" "Nørresundby",
     make_cdata "email" "info@nemtilmeld.dk",
     make_cdata "phone" "+45 70404070",
     make_cdata "website" "https://www.nemtilmeld.dk"]

/-- `build_custom_event` (lines 349-406), child elements in source order. -/
def build_custom_event (pyhash : String → String → String → Int)
    (ev : Event) (host site_title : String) : Xml :=
  let ev_id := build_event_id pyhash host ev.title ev.link
  let dh := ev.detail_html.getD ""
  let desc_html :=
    if dh = "" then
      let t := ev.teaser
      let t := if ev.link ≠ "" then
          t ++ "<p><a href=\"" ++ ev.link ++ "\" target=\"_blank\" rel=\"noopener\">Læs mere</a></p>"
        else t
      "<div>" ++ t ++ "</div>"
    else dh
  .el "event" [("id", ev_id)] .noText
    [.el "org_event_id" [] (.plain ev_id) [],
     make_cdata "title" (if ev.title = "" then "Arrangement" else ev.title),
     .el "description" [] (.cdata desc_html) [],
     make_cdata "description_short" (String.mk (ev.teaser.toList.take 300)),
     .el "start_time" [] (.plain (fmt_h ev.start)) [],
     .el "end_time" [] (.plain (fmt_h ev.stop)) [],
     .el "deadline" [] .noText [],
     .el "start_time_common" [] (.plain (fmt_c ev.start)) [],
     .el "end_time_common" [] (.plain (fmt_c ev.stop)) [],
     .el "deadline_time_common" [] .noText [],
     .el "tickets" [] .noText [],
     .el "available_tickets" [] (.plain "true") [],
     .el "available_tickets_quantity" [] .noText [],
     .el "highest_ticket_price" [] .noText [],
     .el "few_tickets_left" [] (.plain "false") [],
     .el "public_status" [] (.plain "registration_open") [],
     .el "url" [] (.plain ev.link) [],
     .el "images" [] .noText [],
     .el "categories" [] (.plain " ") [],
     .el "location" [("id", ev_id)] .noText
       [make_cdata "type" "address", make_cdata "name" "",
        make_cdata "address" "", .el "zipcode" [] (.cdata "") [],
        make_cdata "city" "", make_cdata "country" "DK"],
     .el "organization" [("id", "0")] .noText
       [make_cdata "title" (if site_title = "" then host else site_title),
        make_cdata "address" "", make_cdata "city" "",
        make_cdata "phone" "", make_cdata "country" "DK",
        make_cdata "url" ("https://" ++ host ++ "/"),
        make_cdata "description" "", make_cdata "email" "",
        .el "zipcode" [] (.cdata "") []],
     .el "contact_details" [] .noText
       [make_cdata "name" (if site_title = "" then host else site_title),
        make_cdata "phone" "", make_cdata "email" ""]]

/-- `write_custom_for_site` (lines 408-415), as the produced tree. -/
def write_custom_for_site (pyhash : String → String → String → Int)
    (host site_title : String) (events : List Event) : Xml :=
  .el "data" [] .noText
    [provider_xml,
     .el "events" [] .noText (events.map (fun ev => build_custom_event pyhash ev host site_title))]

/-- `write_custom_all` (lines 417-424): the already-built event elements
are appended in the given order — no sorting happens here. -/
def write_custom_all (all_event_elements : List Xml) : Xml :=
  .el "data" [] .noText
    [provider_xml,
     .el "events" [] .noText all_event_elements]

/-! ## RSS writers

The RSS sort key is `e.get("start") or now` where `now` is timezone-aware
while parsed starts are naive; Python raises `TypeError` when it compares
a naive with an aware datetime, so the comparison is modelled in `Except`.
A key is `some start` (naive) or `none` (the aware `now`). -/

def rssKey (e : Event) : Option DT := e.start

def pyKeyLe : Option DT → Option DT → Except PyErr Bool
  | some a, some b => .ok (dtLeB a b)
  | none, none => .ok true
  | _, _ => .error .typeError

def pyInsertEv (e : Event) : List Event → Except PyErr (List Event)
  | [] => .ok [e]
  | f :: fs => do
    let le ← pyKeyLe (rssKey e) (rssKey f)
    if le then return e :: f :: fs
    else return f :: (← pyInsertEv e fs)

/-- `sorted(events, key=lambda e: e.get("start") or now)`: stable sort
with comparisons that can raise. -/
def pySortEvents : List Event → Except PyErr (List Event)
  | [] => .ok []
  | e :: es => do pyInsertEv e (← pySortEvents es)

/-- One RSS `<item>` (lines 439-450 / 466-475). -/
def rssItem (now : DT) (ev : Event) : Xml :=
  .el "item" [] .noText
    [.el "title" [] (.plain (if ev.title = "" then "Arrangement" else ev.title)) [],
     .el "link" [] (.plain ev.link) [],
     .el "guid" [("isPermaLink", "true")] (.plain ev.link) [],
     .el "description" [] (.cdata
       (if (ev.detail_html.getD "") = "" then "<div>" ++ ev.teaser ++ "</div>"
        else ev.detail_html.getD "")) [],
     .el "pubDate" [] (.plain
       (match ev.start with
        | some s => fmt_rfc822 s ""
        | none => fmt_rfc822 now "+0000")) []]

def rssChannelHead (title link desc : String) (now : DT) : List Xml :=
  [.el "title" [] (.plain title) [],
   .el "link" [] (.plain link) [],
   .el "description" [] (.plain desc) [],
   .el "language" [] (.plain "da-DK") [],
   .el "pubDate" [] (.plain (fmt_rfc822 now "+0000")) []]

def rssTree (title link desc : String) (now : DT) (sortedEvents : List Event) : Xml :=
  .el "rss" [("version", "2.0")] .noText
    [.el "channel" [] .noText
      (rssChannelHead title link desc now ++ sortedEvents.map (rssItem now))]

/-- `write_rss_for_site` (lines 426-453), as the produced tree; the sort
can raise `TypeError` on a mix of events with and without a start. -/
def write_rss_for_site (host site_title site_url : String)
    (events : List Event) (now : DT) : Except PyErr Xml := do
  let sortedEvents ← pySortEvents events
  return rssTree (if site_title = "" then host else site_title) site_url
    ("Arrangementer fra " ++ (if site_title = "" then host else site_title))
    now sortedEvents

/-- `write_rss_all` (lines 455-478). -/
def write_rss_all (all_events : List Event) (now : DT) : Except PyErr Xml := do
  let sortedEvents ← pySortEvents all_events
  return rssTree "Scleroseforeningen – samlede arrangementer"
    "https://scleroseforeningen.dk/"
    "Aggregat af lokale arrangementer (HTML-scrapet)" now sortedEvents

/-! ## The run driver (`main`, lines 498-553)

The input boundary: each raw source is `none` when `to_listing_url` raised
(the `try` of lines 502-505 catches it and skips the source), otherwise
`some r` where `r` is the outcome of scraping that site —
`Except.error e` when `scrape_listing` (or the extraction inside it)
raised, else the site's host, title, base URL, and enriched events
(the `augment_from_detail` pass swallows its own exceptions, so it never
raises).  The loop over sites (lines 517-541) has no handler: a site
error propagates and aborts the run before the combined files of lines
544-545 are written. -/

structure SiteScrape where
  host : String
  site_title : String
  base : String
  events : List Event
deriving DecidableEq, Repr

structure MainOut where
  per_site : List (String × Xml × Xml)
  data_all : Xml
  rss_all : Xml

/-- The per-site loop: write per-site files, accumulate the custom event
elements and the flat event list for the combined files. -/
def processSites (pyhash : String → String → String → Int) (now : DT) :
    List (Except PyErr SiteScrape) →
    Except PyErr (List (String × Xml × Xml) × List Xml × List Event)
  | [] => .ok ([], [], [])
  | s :: rest => do
    let site ← s
    let custom := write_custom_for_site pyhash site.host site.site_title site.events
    let rss ← write_rss_for_site site.host site.site_title site.base site.events now
    let acc ← processSites pyhash now rest
    return ((site.host, custom, rss) :: acc.1,
      site.events.map (fun ev => build_custom_event pyhash ev site.host site.site_title) ++ acc.2.1,
      site.events ++ acc.2.2)

/-- `main`: skip sources whose URL normalization failed; with no valid
source return without writing anything (`return 3`, modelled as
`.ok none`); otherwise process the sites and write the combined files
(custom first, then RSS). -/
def main_run (pyhash : String → String → String → Int) (now : DT)
    (sources : List (Option (Except PyErr SiteScrape))) :
    Except PyErr (Option MainOut) :=
  if (sources.filterMap id).isEmpty then .ok none
  else do
    let acc ← processSites pyhash now (sources.filterMap id)
    let rssAll ← write_rss_all acc.2.2 now
    return some ⟨acc.1, write_custom_all acc.2.1, rssAll⟩

/-! ## Image extraction (scraper_xml.py `parse_imgs`) -/

/-- `BASE_URL` of scraper_xml.py. -/
def BASE_URL : String := "https://sclerose-bornholm.nemtilmeld.dk/"

/-- `urljoin(BASE_URL, src)` at the fixed base (whose path is `/`):
an absolute reference is returned as is, a network-path reference takes
the base scheme, a rooted path is joined to the authority, and any other
reference resolves against the root. -/
def urljoin_base (src : String) : String :=
  if startsWithChars ("https://").toList src.toList
      || startsWithChars ("http://").toList src.toList then src
  else if startsWithChars ("//").toList src.toList then "https:" ++ src
  else if startsWithChars ("/").toList src.toList then
    "https://sclerose-bornholm.nemtilmeld.dk" ++ src
  else BASE_URL ++ src

/-- The loop of `parse_imgs` (lines 83-90) over the `src` attributes in
document order: skip `data:` URIs, skip a `src` string already seen, and
emit `urljoin(BASE_URL, src)` for the rest. -/
def parse_imgs_go (seen : List String) : List String → List String
  | [] => []
  | src :: rest =>
    if startsWithChars ("data:").toList src.toList then parse_imgs_go seen rest
    else if src ∈ seen then parse_imgs_go seen rest
    else urljoin_base src :: parse_imgs_go (src :: seen) rest

def parse_imgs (srcs : List String) : List String :=
  parse_imgs_go [] srcs

/-- First-occurrence deduplication (specification-side decomposition used
to characterize `parse_imgs`). -/
def firstDedup (seen : List String) : List String → List String
  | [] => []
  | s :: rest =>
    if s ∈ seen then firstDedup seen rest
    else s :: firstDedup (s :: seen) rest

/-! ## Inspection helpers and concrete fixtures -/

/-- Substring test on character lists (kernel-computable). -/
def hasSubChars (p : List Char) : List Char → Bool
  | [] => startsWithChars p []
  | c :: t => startsWithChars p (c :: t) || hasSubChars p t

def cdataChildAt (x : Xml) (t : String) : Bool :=
  match childTag x t with
  | some c => isCDataNode c
  | none => false

def allCDataUnder (x : Xml) (t : String) : Bool :=
  match childTag x t with
  | some c => c.children.all isCDataNode
  | none => false

/-- The `start_time_common` texts of the events of the combined custom
document of a run, in document order. -/
def dataAllStartTexts (r : Except PyErr (Option MainOut)) : Option (List String) :=
  match r with
  | .ok (some out) =>
    match childTag out.data_all ("events") with
    | some evs => some (evs.children.map (fun ev =>
        match childTag ev ("start_time_common") with
        | some c => textString c
        | none => ""))
    | none => none
  | _ => none

/-- A possible per-process tuple-hash function (e.g. one hash seed). -/
def hash0 : String → String → String → Int := fun _ _ _ => 0

/-- Another possible per-process tuple-hash function (another seed). -/
def hash1 : String → String → String → Int := fun _ _ _ => 1

def now0 : DT := ⟨2025, 10, 12, 12, 0⟩

def ev_june : Event :=
  { title := "Sommerfest", link := "https://a.dk/1/", teaser := "fest",
    start := some ⟨2025, 6, 1, 10, 0⟩, stop := some ⟨2025, 6, 1, 12, 0⟩,
    is_internal := true }

def ev_may : Event :=
  { title := "Vandretur", link := "https://b.dk/2/", teaser := "tur",
    start := some ⟨2025, 5, 1, 10, 0⟩, stop := some ⟨2025, 5, 1, 12, 0⟩,
    is_internal := true }

def siteJune : SiteScrape :=
  { host := "a.dk", site_title := "Site A", base := "https://a.dk/", events := [ev_june] }

def siteMay : SiteScrape :=
  { host := "b.dk", site_title := "Site B", base := "https://b.dk/", events := [ev_may] }

/-- Two sites, one event each, the later-starting site processed first. -/
def c5_sources : List (Option (Except PyErr SiteScrape)) :=
  [some (.ok siteJune), some (.ok siteMay)]

def c2_ok_sources : List (Option (Except PyErr SiteScrape)) :=
  [some (.ok siteJune)]

/-- Two candidates resolving to the same canonical URL, plus one keyed by
(title, start). -/
def eC8a : Event :=
  { title := "Foredrag", link := "https://a.dk/7/", teaser := "",
    start := some ⟨2025, 1, 1, 9, 0⟩, stop := none, is_internal := true }

def eC8b : Event :=
  { title := "Foredrag igen", link := "https://a.dk/7/", teaser := "",
    start := some ⟨2025, 2, 2, 9, 0⟩, stop := none, is_internal := true }

def eC8c : Event :=
  { title := "Uden link", link := "", teaser := "",
    start := none, stop := none, is_internal := false }

/-! ## Order lemmas for the sort key -/

theorem dtLeB_total (a b : DT) : dtLeB a b = true ∨ dtLeB b a = true := by
  simp only [dtLeB, Bool.or_eq_true, Bool.and_eq_true, decide_eq_true_eq]
  omega

theorem dtLeB_trans {a b c : DT} (h1 : dtLeB a b = true) (h2 : dtLeB b c = true) :
    dtLeB a c = true := by
  simp only [dtLeB, Bool.or_eq_true, Bool.and_eq_true, decide_eq_true_eq] at h1 h2 ⊢
  omega

theorem evLeB_total (a b : Event) : evLeB a b = true ∨ evLeB b a = true :=
  dtLeB_total _ _

theorem evLeB_trans {a b c : Event} (h1 : evLeB a b = true) (h2 : evLeB b c = true) :
    evLeB a c = true :=
  dtLeB_trans h1 h2

/-! ## Lemmas about the listing sort -/

theorem insertEv_perm (e : Event) (l : List Event) : List.Perm (insertEv e l) (e :: l) := by
  induction l with
  | nil => exact List.Perm.refl _
  | cons f fs ih =>
    unfold insertEv
    split
    · exact List.Perm.refl _
    · exact (ih.cons f).trans (List.Perm.swap e f fs)

theorem sortEvents_perm (l : List Event) : List.Perm (sortEvents l) l := by
  induction l with
  | nil => exact List.Perm.refl _
  | cons e es ih => exact (insertEv_perm e (sortEvents es)).trans (ih.cons e)

theorem insertEv_sorted {l : List Event} (e : Event)
    (h : l.Pairwise (fun a b => evLeB a b = true)) :
    (insertEv e l).Pairwise (fun a b => evLeB a b = true) := by
  induction l with
  | nil => simp [insertEv]
  | cons f fs ih =>
    rcases List.pairwise_cons.mp h with ⟨hf, hfs⟩
    unfold insertEv
    split
    next hef =>
      refine List.pairwise_cons.mpr ⟨?_, h⟩
      intro x hx
      rcases List.mem_cons.mp hx with rfl | hx'
      · exact hef
      · exact evLeB_trans hef (hf x hx')
    next hef =>
      refine List.pairwise_cons.mpr ⟨?_, ih hfs⟩
      intro x hx
      rcases List.mem_cons.mp ((insertEv_perm e fs).mem_iff.mp hx) with h2 | hx'
      · rw [h2]
        rcases evLeB_total e f with h3 | h3
        · exact absurd h3 hef
        · exact h3
      · exact hf x hx'

theorem sortEvents_sorted (l : List Event) :
    (sortEvents l).Pairwise (fun a b => evLeB a b = true) := by
  induction l with
  | nil => exact List.Pairwise.nil
  | cons e es ih => exact insertEv_sorted e ih

/-! ## Lemmas about the dedup loop -/

theorem dedupEvents_filter_of_mem (k : EvKey) (cands : List Event) :
    ∀ seen : List EvKey, k ∈ seen →
    (dedupEvents seen cands).filter (fun e => decide (dedupKey e = k)) = [] := by
  induction cands with
  | nil => intro seen _; rfl
  | cons e es ih =>
    intro seen hk
    unfold dedupEvents
    split
    · exact ih seen hk
    · split
      · exact ih seen hk
      · next hnot =>
        have hne : ¬ dedupKey e = k := fun h => hnot (h ▸ hk)
        simp only [List.filter_cons, decide_eq_true_eq]
        rw [if_neg (by simpa using hne)]
        exact ih (dedupKey e :: seen) (List.mem_cons_of_mem _ hk)

theorem dedupEvents_filter (k : EvKey) (cands : List Event) :
    ∀ seen : List EvKey, k ∉ seen →
    (dedupEvents seen cands).filter (fun e => decide (dedupKey e = k)) =
      (cands.filter (fun e => !discardedCand e && decide (dedupKey e = k))).take 1 := by
  induction cands with
  | nil => intro seen _; rfl
  | cons e es ih =>
    intro seen hk
    unfold dedupEvents
    by_cases hd : discardedCand e
    · rw [if_pos hd]
      rw [ih seen hk]
      simp only [List.filter_cons, hd, Bool.false_and, Bool.not_true]
      rfl
    · rw [if_neg hd]
      by_cases hseen : dedupKey e ∈ seen
      · rw [if_pos hseen]
        have hne : ¬ dedupKey e = k := fun h => hk (h ▸ hseen)
        rw [ih seen hk]
        simp only [List.filter_cons, Bool.not_eq_true', decide_eq_true_eq]
        rw [if_neg (by simp [hd, hne])]
      · rw [if_neg hseen]
        by_cases hke : dedupKey e = k
        · simp only [List.filter_cons, decide_eq_true_eq]
          rw [if_pos (by simpa using hke)]
          rw [dedupEvents_filter_of_mem k es (dedupKey e :: seen) (by simp [hke])]
          rw [if_pos (by simp [hd, hke])]
          simp
        · simp only [List.filter_cons, decide_eq_true_eq]
          rw [if_neg (by simpa using hke)]
          rw [if_neg (by simp [hd, hke])]
          refine ih (dedupKey e :: seen) ?_
          intro hmem
          rcases List.mem_cons.mp hmem with h | h
          · exact hke h.symm
          · exact hk h

theorem eq_of_perm_length_le_one {l l' : List Event} (h : List.Perm l l') (h1 : l'.length ≤ 1) :
    l = l' := by
  match l', h1 with
  | [], _ => exact List.perm_nil.mp h
  | [x], _ => exact List.perm_singleton.mp h

/-- The filter / dedup / sort core keeps, for each deduplication key,
exactly the first surviving candidate with that key. -/
theorem scrape_core_filter_key (k : EvKey) (cands : List Event) :
    (scrape_core cands).filter (fun e => decide (dedupKey e = k)) =
      (cands.filter (fun e => !discardedCand e && decide (dedupKey e = k))).take 1 := by
  have hperm := (sortEvents_perm (dedupEvents [] cands)).filter
    (fun e => decide (dedupKey e = k))
  have hd := dedupEvents_filter k cands [] (by simp)
  refine Eq.trans (eq_of_perm_length_le_one (hd ▸ hperm) ?_) hd.symm ▸ ?_
  · exact le_trans (List.length_take_le 1 _) (le_refl 1)
  · exact hd

/-! ## Key equivalences for the deduplication claim -/

theorem dedupKey_inl_iff {L : String} (hL : L ≠ "") (e : Event) :
    dedupKey e = Sum.inl L ↔ e.link = L := by
  unfold dedupKey
  split
  · constructor
    · intro h; injection h
    · intro h; rw [h]
  · next hlink =>
    have : e.link = "" := by
      by_contra hc; exact hlink hc
    constructor
    · intro h; injection h
    · intro h; exact absurd (h ▸ this) hL

theorem dedupKey_inr_iff {T : String} {S : Option DT} (e : Event) :
    dedupKey e = Sum.inr (T, S) ↔ e.link = "" ∧ e.title = T ∧ e.start = S := by
  unfold dedupKey
  split
  · next hlink =>
    constructor
    · intro h; injection h
    · intro h; exact absurd h.1 hlink
  · next hlink =>
    have hl : e.link = "" := by
      by_contra hc; exact hlink hc
    constructor
    · intro h
      injection h with h
      exact ⟨hl, congrArg Prod.fst h, congrArg Prod.snd h⟩
    · intro h; rw [h.2.1, h.2.2]

/-! ## Inversion lemmas for the datetime combination -/

theorem mkDatetime_ok_eq {y m d hh mi : Nat} {s : DT}
    (h : mkDatetime y m d hh mi = .ok s) : s = ⟨y, m, d, hh, mi⟩ := by
  unfold mkDatetime at h
  split at h
  · injection h with h
    exact h.symm
  · exact Except.noConfusion h

theorem bind_ok_eq {ε α β : Type} (a : α) (f : α → Except ε β) :
    (Except.ok a >>= f) = f a := rfl

theorem combineDT_ok_some {d m y : Nat} {tm : Option (Nat × Nat)} {s e : DT}
    (h : combineDT d m y tm = .ok (some s, some e)) :
    e.year = s.year ∧ e.month = s.month ∧ e.day = s.day ∧
      e.hour = min 23 (s.hour + 2) ∧ e.minute = s.minute := by
  unfold combineDT at h
  rcases hs : mkDatetime y m d ((tm.map Prod.fst).getD 9) ((tm.map Prod.snd).getD 0)
    with er | s'
  · rw [hs] at h
    exact Except.noConfusion h
  · rw [hs] at h
    rcases he : mkDatetime y m d (min 23 (((tm.map Prod.fst).getD 9) + 2))
      ((tm.map Prod.snd).getD 0) with er | e'
    · rw [he] at h
      exact Except.noConfusion h
    · rw [he] at h
      have hse : ((some s', some e') : Option DT × Option DT) = (some s, some e) := by
        injection h
      have hs2 : s' = s := by
        have h2 := congrArg Prod.fst hse
        simpa using h2
      have he2 : e' = e := by
        have h2 := congrArg Prod.snd hse
        simpa using h2
      rw [← hs2, ← he2, mkDatetime_ok_eq hs, mkDatetime_ok_eq he]
      simp

theorem parse_gate_ok_some {dmy : Option Nat × Option Nat × Option Nat}
    {tm : Option (Nat × Nat)} {s e : DT}
    (h : parse_gate dmy tm = .ok (some s, some e)) :
    e.year = s.year ∧ e.month = s.month ∧ e.day = s.day ∧
      e.hour = min 23 (s.hour + 2) ∧ e.minute = s.minute := by
  unfold parse_gate at h
  split at h
  · exact combineDT_ok_some h
  · injection h with h
    exact absurd (congrArg Prod.fst h) (by simp)

theorem parse_dk_end_rule {t : String} {s e : DT}
    (h : parse_dk_datetime t = .ok (some s, some e)) :
    e.year = s.year ∧ e.month = s.month ∧ e.day = s.day ∧
      e.hour = min 23 (s.hour + 2) ∧ e.minute = s.minute := by
  unfold parse_dk_datetime at h
  split at h
  · injection h with h
    exact absurd (congrArg Prod.fst h) (by simp)
  · exact parse_gate_ok_some h

theorem extract_dt_end_rule {t : String} {s e : DT}
    (h : extract_dt t = .ok (some s, some e)) :
    e.year = s.year ∧ e.month = s.month ∧ e.day = s.day ∧
      e.hour = min 23 (s.hour + 2) ∧ e.minute = s.minute :=
  parse_gate_ok_some h

/-! ## Success lemmas for the RSS sort and the run driver -/

theorem pyInsertEv_ok (e : Event) (l : List Event) (he : e.start.isSome)
    (hl : ∀ f ∈ l, f.start.isSome) :
    ∃ l', pyInsertEv e l = .ok l' ∧ ∀ f ∈ l', f.start.isSome := by
  induction l with
  | nil => exact ⟨[e], rfl, by simpa using he⟩
  | cons f fs ih =>
    have hf : f.start.isSome := hl f (List.mem_cons_self f fs)
    rcases Option.isSome_iff_exists.mp he with ⟨a, ha⟩
    rcases Option.isSome_iff_exists.mp hf with ⟨b, hb⟩
    rcases ih (fun g hg => hl g (List.mem_cons_of_mem f hg)) with ⟨l', hl', hall⟩
    unfold pyInsertEv
    rw [show pyKeyLe (rssKey e) (rssKey f) = .ok (dtLeB a b) by
      simp [pyKeyLe, rssKey, ha, hb]]
    by_cases hcmp : dtLeB a b = true
    · rw [hcmp]
      refine ⟨e :: f :: fs, rfl, ?_⟩
      intro g hg
      rcases List.mem_cons.mp hg with h1 | h1
      · rw [h1]; exact he
      · exact hl g h1
    · rw [Bool.not_eq_true] at hcmp
      rw [hcmp]
      refine ⟨f :: l', ?_, ?_⟩
      · rw [hl']
        rfl
      · intro g hg
        rcases List.mem_cons.mp hg with h1 | h1
        · rw [h1]; exact hf
        · exact hall g h1

theorem pySortEvents_ok (l : List Event) (h : ∀ f ∈ l, f.start.isSome) :
    ∃ l', pySortEvents l = .ok l' ∧ ∀ f ∈ l', f.start.isSome := by
  induction l with
  | nil => exact ⟨[], rfl, by simp⟩
  | cons e es ih =>
    rcases ih (fun g hg => h g (List.mem_cons_of_mem e hg)) with ⟨l', hl', hall⟩
    rcases pyInsertEv_ok e l' (h e (List.mem_cons_self e es)) hall with ⟨l'', hl'', hall2⟩
    refine ⟨l'', ?_, hall2⟩
    unfold pySortEvents
    rw [hl', bind_ok_eq]
    exact hl''

theorem write_rss_for_site_ok (host st url : String) (l : List Event) (now : DT)
    (h : ∀ f ∈ l, f.start.isSome) :
    ∃ x, write_rss_for_site host st url l now = .ok x := by
  rcases pySortEvents_ok l h with ⟨l', hl', _⟩
  refine ⟨rssTree (if st = "" then host else st) url
    ("Arrangementer fra " ++ (if st = "" then host else st)) now l', ?_⟩
  unfold write_rss_for_site
  rw [hl']
  rfl

theorem write_rss_all_ok (l : List Event) (now : DT)
    (h : ∀ f ∈ l, f.start.isSome) :
    ∃ x, write_rss_all l now = .ok x ∧ (childTag x "channel").isSome = true := by
  rcases pySortEvents_ok l h with ⟨l', hl', _⟩
  refine ⟨rssTree "Scleroseforeningen – samlede arrangementer"
    "https://scleroseforeningen.dk/"
    "Aggregat af lokale arrangementer (HTML-scrapet)" now l', ?_, rfl⟩
  unfold write_rss_all
  rw [hl']
  rfl

theorem processSites_ok (pyhash : String → String → String → Int) (now : DT)
    (l : List (Except PyErr SiteScrape))
    (h : ∀ s ∈ l, ∃ site, s = Except.ok site ∧ ∀ e ∈ site.events, e.start.isSome) :
    ∃ acc, processSites pyhash now l = .ok acc ∧ ∀ e ∈ acc.2.2, e.start.isSome := by
  induction l with
  | nil => exact ⟨([], [], []), rfl, by simp⟩
  | cons s rest ih =>
    rcases h s (List.mem_cons_self s rest) with ⟨site, rfl, hsome⟩
    rcases write_rss_for_site_ok site.host site.site_title site.base site.events now hsome
      with ⟨rss, hrss⟩
    rcases ih (fun s' hs' => h s' (List.mem_cons_of_mem _ hs')) with ⟨acc, hacc, hflat⟩
    refine ⟨((site.host, write_custom_for_site pyhash site.host site.site_title site.events,
      rss) :: acc.1,
      site.events.map (fun ev => build_custom_event pyhash ev site.host site.site_title)
        ++ acc.2.1,
      site.events ++ acc.2.2), ?_, ?_⟩
    · unfold processSites
      rw [bind_ok_eq, hrss, bind_ok_eq, hacc, bind_ok_eq]
      rfl
    · intro e he
      rcases List.mem_append.mp he with h1 | h1
      · exact hsome e h1
      · exact hflat e h1

/-! ## Claim C1 -/

/-- C1 (counterexample): `DATE_PATS` contains no ISO pattern, so the
ISO-shaped text "2025-09-14 10:00" is matched by the numeric
`D[. / -]M[. / -]Y` pattern at offset 2 as day 25, month 09, two-digit year 14
(expanded to 2014) — not as 2025-09-14T10:00 with end 12:00 as claimed. -/
theorem C1_counterexample :
    parse_dk_datetime "2025-09-14 10:00" =
      .ok (some ⟨2014, 9, 25, 10, 0⟩, some ⟨2014, 9, 25, 12, 0⟩) ∧
    parse_dk_datetime "2025-09-14 10:00" ≠
      .ok (some ⟨2025, 9, 14, 10, 0⟩, some ⟨2025, 9, 14, 12, 0⟩) := by
  decide

/-- C1 (amended): the parser has only two date sub-patterns, the
month-name pattern first and the numeric pattern second.  An ISO-shaped
text falls through to the numeric pattern and is misread as D-M-YY
(start 2014-09-25T10:00, end 2014-09-25T12:00 for "2025-09-14 10:00");
on a text matching both patterns the month-name pattern wins
(here 2025-05-01, not 2026-03-02 built from the numeric match). -/
theorem C1_amended :
    parse_dk_datetime "2025-09-14 10:00" =
      .ok (some ⟨2014, 9, 25, 10, 0⟩, some ⟨2014, 9, 25, 12, 0⟩) ∧
    parse_dk_datetime "1. maj 2025 02-03-2026" =
      .ok (some ⟨2025, 5, 1, 9, 0⟩, some ⟨2025, 5, 1, 11, 0⟩) := by
  decide

/-! ## Claim C6 -/

/-- C6 (counterexample): on "31. april 2025" (day 31 in April) the date
pattern matches and `datetime(2025, 4, 31, 9, 0)` raises `ValueError`,
which `parse_dk_datetime` does not catch — it does not return
`(None, None)` silently. -/
theorem C6_counterexample :
    parse_dk_datetime "31. april 2025" = .error .valueError ∧
    parse_dk_datetime "31. april 2025" ≠ .ok (none, none) := by
  decide

/-- C6 (amended): invalid calendar or time values reaching the `datetime`
constructor make the parse raise `ValueError` (uncaught inside the parse
functions of both source files) rather than silently returning
`(None, None)`. -/
theorem C6_amended :
    parse_dk_datetime "31. april 2025" = .error .valueError ∧
    parse_dk_datetime "1-2-2025 kl. 30.15" = .error .valueError ∧
    extract_dt "31. april 2025" = .error .valueError := by
  decide

/-! ## Claim C9 -/

/-- C9 (counterexample): for "2.9.2025 kl. 22.30" the start is 22:30 and
the end is `min(23, 24):30` = 23:30, not 23:00 — the cap applies to the
hour only and the minutes are preserved, so the end is not
"start + 2 hours capped at 23:00". -/
theorem C9_counterexample :
    parse_dk_datetime "2.9.2025 kl. 22.30" =
      .ok (some ⟨2025, 9, 2, 22, 30⟩, some ⟨2025, 9, 2, 23, 30⟩) ∧
    ¬ ((⟨2025, 9, 2, 23, 30⟩ : DT) = ⟨2025, 9, 2, 23, 0⟩) := by
  decide

/-- C9 (amended): whenever either parse function returns both a start and
an end, the end is on the same calendar day with the same minutes, and
its hour is `min 23 (start hour + 2)` — start + 2 hours with the hour
clamped to 23, minutes kept. -/
theorem C9_amended :
    (∀ (t : String) (s e : DT), parse_dk_datetime t = .ok (some s, some e) →
      e.year = s.year ∧ e.month = s.month ∧ e.day = s.day ∧
        e.hour = min 23 (s.hour + 2) ∧ e.minute = s.minute) ∧
    (∀ (t : String) (s e : DT), extract_dt t = .ok (some s, some e) →
      e.year = s.year ∧ e.month = s.month ∧ e.day = s.day ∧
        e.hour = min 23 (s.hour + 2) ∧ e.minute = s.minute) :=
  ⟨fun _ _ _ h => parse_dk_end_rule h, fun _ _ _ h => extract_dt_end_rule h⟩

/-- C9 (witness): the amended end rule instantiated on
"2. september 2025 kl. 19:00" (start 19:00, end 21:00). -/
theorem C9_witness :
    parse_dk_datetime "2. september 2025 kl. 19:00" =
      .ok (some ⟨2025, 9, 2, 19, 0⟩, some ⟨2025, 9, 2, 21, 0⟩) ∧
    ((⟨2025, 9, 2, 21, 0⟩ : DT).year = (⟨2025, 9, 2, 19, 0⟩ : DT).year ∧
      (⟨2025, 9, 2, 21, 0⟩ : DT).month = (⟨2025, 9, 2, 19, 0⟩ : DT).month ∧
      (⟨2025, 9, 2, 21, 0⟩ : DT).day = (⟨2025, 9, 2, 19, 0⟩ : DT).day ∧
      (⟨2025, 9, 2, 21, 0⟩ : DT).hour = min 23 ((⟨2025, 9, 2, 19, 0⟩ : DT).hour + 2) ∧
      (⟨2025, 9, 2, 21, 0⟩ : DT).minute = (⟨2025, 9, 2, 19, 0⟩ : DT).minute) :=
  ⟨by decide,
   C9_amended.1 "2. september 2025 kl. 19:00" ⟨2025, 9, 2, 19, 0⟩ ⟨2025, 9, 2, 21, 0⟩
     (by decide)⟩

/-! ## Claim C4 -/

/-- C4: the fallback event id is `str(abs(hash((host, title, url))) % 10**9)`
and CPython's string hash is salted per process, so the id is a function
of the process's hash function, not of (host, title, url) alone: two runs
with different hash seeds give different fallback ids for the same input.
When the URL carries a numeric trailing path segment the id is that
segment and is independent of the hash. -/
theorem C4_id_process_hash :
    build_event_id hash0 "example.dk" "Møde" "" ≠
      build_event_id hash1 "example.dk" "Møde" "" ∧
    (∀ ha hb : String → String → String → Int,
      build_event_id ha "example.dk" "Møde" "https://example.dk/123/" =
        build_event_id hb "example.dk" "Møde" "https://example.dk/123/") := by
  refine ⟨by decide, ?_⟩
  intro ha hb
  rfl

/-! ## Claim C3 -/

/-- C3: with zero discovered events the listing core yields the empty
collection, the per-site custom document is well-formed with an empty
`events` element, and the per-site RSS is produced without an exception,
well-formed, with zero `item` elements in the channel. -/
theorem C3_empty_site_outputs (pyhash : String → String → String → Int)
    (host site_title site_url : String) (now : DT) :
    scrape_core [] = [] ∧
    (childTag (write_custom_for_site pyhash host site_title []) "events").map Xml.children
      = some [] ∧
    wellFormedTo 4 (write_custom_for_site pyhash host site_title []) = true ∧
    (write_rss_for_site host site_title site_url [] now).map
      (fun r => (childTag r "channel").map
        (fun ch => (ch.children.filter (fun c => c.tag = "item")).length)) = .ok (some 0) ∧
    (write_rss_for_site host site_title site_url [] now).map (wellFormedTo 4) = .ok true :=
  ⟨rfl, rfl, rfl, rfl, rfl⟩

/-! ## Claim C7 -/

/-- C7 (counterexample): `ctext` of scraper_xml.py writes the CDATA
markers as literal element text, which serialization entity-escapes, so
the serialized output contains no CDATA section (while `make_cdata` of
multi_scraper_xml.py produces a genuine one). -/
theorem C7_counterexample :
    serializeTo 1 (ctext "title" "Fest") = "<title>&lt;![CDATA[ Fest ]]&gt;</title>" ∧
    hasSubChars ("<![CDATA[").toList (serializeTo 1 (ctext "title" "Fest")).toList = false ∧
    hasSubChars ("<![CDATA[").toList (serializeTo 1 (make_cdata "title" "Fest")).toList = true := by
  decide

/-- C7 (amended): in multi_scraper_xml.py every enumerated text-bearing
field of every event element — title, description, description_short and
all location / organization / contact_details fields — is a genuine CDATA
node, present even when the underlying strings are empty, and an empty
CDATA node serializes as an empty CDATA section; in scraper_xml.py the
markers are literal text that serialization escapes (see the
counterexample). -/
theorem C7_amended :
    (∀ (pyhash : String → String → String → Int) (ev : Event) (host st : String),
      (cdataChildAt (build_custom_event pyhash ev host st) "title"
        && cdataChildAt (build_custom_event pyhash ev host st) "description"
        && cdataChildAt (build_custom_event pyhash ev host st) "description_short"
        && allCDataUnder (build_custom_event pyhash ev host st) "location"
        && allCDataUnder (build_custom_event pyhash ev host st) "organization"
        && allCDataUnder (build_custom_event pyhash ev host st) "contact_details") = true) ∧
    serializeTo 1 (make_cdata "title" "") = "<title><![CDATA[]]></title>" := by
  refine ⟨?_, by decide⟩
  intro pyhash ev host st
  rfl

/-! ## Claim C10 -/

/-- C10 (counterexample): `parse_imgs` applies no denylist — a
decorative-looking asset such as a spacer gif is kept — and deduplicates
on the raw `src` string before resolution, so a rooted path and the equal
absolute URL both survive and the output repeats the same absolute URL. -/
theorem C10_counterexample :
    parse_imgs ["/gfx/spacer.gif", "/a.png",
        "https://sclerose-bornholm.nemtilmeld.dk/a.png"] =
      ["https://sclerose-bornholm.nemtilmeld.dk/gfx/spacer.gif",
       "https://sclerose-bornholm.nemtilmeld.dk/a.png",
       "https://sclerose-bornholm.nemtilmeld.dk/a.png"] ∧
    ¬ (parse_imgs ["/gfx/spacer.gif", "/a.png",
        "https://sclerose-bornholm.nemtilmeld.dk/a.png"]).Nodup := by
  constructor
  · decide
  · decide

theorem parse_imgs_go_spec (srcs : List String) : ∀ seen : List String,
    parse_imgs_go seen srcs =
      (firstDedup seen (srcs.filter
        (fun s => !startsWithChars ("data:").toList s.toList))).map urljoin_base := by
  induction srcs with
  | nil => intro seen; rfl
  | cons src rest ih =>
    intro seen
    by_cases hdata : startsWithChars ("data:").toList src.toList = true
    · simp only [parse_imgs_go, hdata, if_pos, List.filter_cons, Bool.not_true]
      rw [if_neg (by simp)]
      exact ih seen
    · rw [Bool.not_eq_true] at hdata
      by_cases hseen : src ∈ seen
      · simp only [parse_imgs_go, hdata, List.filter_cons]
        rw [if_neg (by simp), if_pos hseen, if_pos (by simp [hdata]), firstDedup,
          if_pos hseen]
        exact ih seen
      · simp only [parse_imgs_go, hdata, List.filter_cons]
        rw [if_neg (by simp), if_neg hseen, if_pos (by simp [hdata]), firstDedup,
          if_neg hseen]
        simp only [List.map_cons]
        rw [ih (src :: seen)]

/-- C10 (amended): the extracted images are, in document order, the
absolute resolutions of exactly the non-`data:` `src` attributes
deduplicated by their raw `src` value (first occurrence kept) — there is
no denylist, and deduplication happens before URL resolution. -/
theorem C10_amended : ∀ srcs : List String,
    parse_imgs srcs =
      (firstDedup [] (srcs.filter
        (fun s => !startsWithChars ("data:").toList s.toList))).map urljoin_base :=
  fun srcs => parse_imgs_go_spec srcs []

/-! ## Claim C5 -/

/-- C5 (counterexample): two sites with one event each, the later-starting
site processed first — the combined custom document keeps site processing
order, so its two event elements list the 2025-06-01 start before the
2025-05-01 start, which is not ascending. -/
theorem C5_counterexample :
    dataAllStartTexts (main_run hash0 now0 c5_sources) =
      some [fmt_c (some ⟨2025, 6, 1, 10, 0⟩), fmt_c (some ⟨2025, 5, 1, 10, 0⟩)] ∧
    dtLeB ⟨2025, 6, 1, 10, 0⟩ ⟨2025, 5, 1, 10, 0⟩ = false := by
  constructor
  · decide
  · decide

/-- C5 (amended): each per-site collection is sorted by start ascending
with missing starts keyed by the maximal sentinel `datetime.max`, but
`write_custom_all` performs no sorting — the combined custom document
keeps exactly the order of the event elements it is handed (site
processing order, then per-site order). -/
theorem C5_amended :
    (∀ cands : List Event,
      (scrape_core cands).Pairwise (fun a b => evLeB a b = true)) ∧
    (∀ els : List Xml,
      childTag (write_custom_all els) "events" = some (.el "events" [] .noText els)) :=
  ⟨fun cands => sortEvents_sorted (dedupEvents [] cands), fun _ => rfl⟩

/-! ## Claim C8 -/

/-- C8: deduplication in the listing core uses the resolved url as key
when non-empty, else the (title, start) pair; for each such key the final
collection holds exactly the first surviving candidate with that key
(`take 1` of the matching candidates), so later duplicates — in
particular a second candidate resolving to the same canonical URL — are
silently dropped. -/
theorem C8_dedup_first_wins (cands : List Event) (L T : String) (S : Option DT)
    (hL : L ≠ "") (hT : T ≠ "") :
    (scrape_core cands).filter (fun e => decide (e.link = L)) =
      (cands.filter (fun e => decide (e.link = L))).take 1 ∧
    (scrape_core cands).filter
        (fun e => decide (e.link = "" ∧ e.title = T ∧ e.start = S)) =
      (cands.filter (fun e => decide (e.link = "" ∧ e.title = T ∧ e.start = S))).take 1 := by
  constructor
  · have hp1 : ∀ e ∈ scrape_core cands,
        (decide (e.link = L)) = (decide (dedupKey e = Sum.inl L)) := by
      intro e _
      simp only [decide_eq_decide]
      exact (dedupKey_inl_iff hL e).symm
    have hp2 : ∀ e ∈ cands,
        (!discardedCand e && decide (dedupKey e = Sum.inl L)) = decide (e.link = L) := by
      intro e _
      by_cases h : e.link = L
      · have hkey : dedupKey e = Sum.inl L := (dedupKey_inl_iff hL e).mpr h
        have hdisc : discardedCand e = false := by
          simp [discardedCand, h, hL]
        simp [hdisc, hkey, h]
      · have hkey : ¬ dedupKey e = Sum.inl L := fun hh => h ((dedupKey_inl_iff hL e).mp hh)
        simp [hkey, h]
    rw [List.filter_congr hp1, scrape_core_filter_key (Sum.inl L) cands,
      List.filter_congr hp2]
  · have hp1 : ∀ e ∈ scrape_core cands,
        (decide (e.link = "" ∧ e.title = T ∧ e.start = S)) =
          (decide (dedupKey e = Sum.inr (T, S))) := by
      intro e _
      simp only [decide_eq_decide]
      exact (dedupKey_inr_iff e).symm
    have hp2 : ∀ e ∈ cands,
        (!discardedCand e && decide (dedupKey e = Sum.inr (T, S))) =
          decide (e.link = "" ∧ e.title = T ∧ e.start = S) := by
      intro e _
      by_cases h : e.link = "" ∧ e.title = T ∧ e.start = S
      · have hkey : dedupKey e = Sum.inr (T, S) := (dedupKey_inr_iff e).mpr h
        have hdisc : discardedCand e = false := by
          simp [discardedCand, h.2.1, hT]
        simp [hdisc, hkey, h]
      · have hkey : ¬ dedupKey e = Sum.inr (T, S) := fun hh => h ((dedupKey_inr_iff e).mp hh)
        simp [hkey, h]
    rw [List.filter_congr hp1, scrape_core_filter_key (Sum.inr (T, S)) cands,
      List.filter_congr hp2]

/-- C8 (witness): two candidates sharing the canonical URL
"https://a.dk/7/" (plus one keyed by title/start) leave exactly one event
with that URL — the first candidate — in the final collection. -/
theorem C8_witness :
    ("https://a.dk/7/" ≠ "" ∧ "Uden link" ≠ "") ∧
    ((scrape_core [eC8a, eC8b, eC8c]).filter
        (fun e => decide (e.link = "https://a.dk/7/")) =
      ([eC8a, eC8b, eC8c].filter
        (fun e => decide (e.link = "https://a.dk/7/"))).take 1 ∧
    (scrape_core [eC8a, eC8b, eC8c]).filter
        (fun e => decide (e.link = "" ∧ e.title = "Uden link" ∧ e.start = none)) =
      ([eC8a, eC8b, eC8c].filter
        (fun e => decide (e.link = "" ∧ e.title = "Uden link" ∧ e.start = none))).take 1) :=
  ⟨⟨by decide, by decide⟩,
   C8_dedup_first_wins [eC8a, eC8b, eC8c] "https://a.dk/7/" "Uden link" none
     (by decide) (by decide)⟩

/-! ## Claim C2 -/

/-- C2 (counterexample): `main` has no handler around per-site scraping —
with a first site whose scrape raises and a second valid site, the run
aborts with the exception: the remaining site is not processed and no
combined output is produced, even though the run has a valid source. -/
theorem C2_counterexample :
    main_run hash0 now0 [some (.error PyErr.fetchError), some (.ok siteMay)] =
      .error .fetchError ∧
    ([some (.error PyErr.fetchError), some (.ok siteMay)] :
      List (Option (Except PyErr SiteScrape))).filterMap id ≠ [] :=
  ⟨rfl, by decide⟩

/-- C2 (amended): failures normalizing a source URL are caught and those
sources skipped, but a failure while scraping a site propagates and
aborts the run, so the combined files are written only when every site
scrape succeeds; in that case (here with every event carrying a start, so
the RSS sort cannot raise) the run yields both combined documents — the
custom one with its `provider` and `events` elements and the RSS one with
its channel — even when the sites produced zero events. -/
theorem C2_amended (pyhash : String → String → String → Int) (now : DT)
    (sources : List (Option (Except PyErr SiteScrape)))
    (h1 : sources.filterMap id ≠ [])
    (h2 : ∀ s ∈ sources.filterMap id,
      ∃ site, s = Except.ok site ∧ ∀ e ∈ site.events, e.start.isSome) :
    ∃ out, main_run pyhash now sources = .ok (some out) ∧
      out.data_all.children.map Xml.tag = ["provider", "events"] ∧
      (childTag out.rss_all "channel").isSome = true := by
  rcases processSites_ok pyhash now (sources.filterMap id) h2 with ⟨acc, hacc, hflat⟩
  rcases write_rss_all_ok acc.2.2 now hflat with ⟨rssAll, hrss, hch⟩
  refine ⟨⟨acc.1, write_custom_all acc.2.1, rssAll⟩, ?_, rfl, hch⟩
  unfold main_run
  rcases hm : sources.filterMap id with _ | ⟨a, rest⟩
  · exact absurd hm h1
  · rw [hm] at hacc
    rw [if_neg (by simp), hacc, bind_ok_eq, hrss, bind_ok_eq]
    rfl

/-- C2 (witness): the amended run guarantee instantiated on a single
valid site with one started event. -/
theorem C2_witness :
    ∃ out, main_run hash0 now0 c2_ok_sources = .ok (some out) ∧
      out.data_all.children.map Xml.tag = ["provider", "events"] ∧
      (childTag out.rss_all "channel").isSome = true :=
  C2_amended hash0 now0 c2_ok_sources (by decide)
    (by
      intro s hs
      have he : c2_ok_sources.filterMap id = [Except.ok siteJune] := rfl
      rw [he] at hs
      exact ⟨siteJune, List.mem_singleton.mp hs, by decide⟩)

end Scraper
